import Mathlib

/-
Shallow embedding of the live chess-game subsystem of src/server.js
(createNewChessGame, isValidMove, isPathClear, makeMove, checkGameEnd, and
the socket handlers for "chess move" and "chess invite response").
Boards are 8x8 arrays of squares; a square is null or a one-character piece
code, uppercase for white ('P','R','N','B','Q','K') and lowercase for black.
Coordinates are (row, column) pairs of integers, as in the source, where a
move payload may carry any integers and the validator bounds-checks them.
Side effects (database writes, socket emits) are modelled as an explicit
ordered list of Effect values, in the order the source performs them.
-/

/-- Square content: none is the null square of the source, some c a piece. -/
abbrev Square := Option Char

/-- Board: the 8x8 nested array of squares from the source (game.board). -/
abbrev Board := List (List Square)

/-- Reading board[r][c]. All reads performed by the source happen either
after the bounds check of isValidMove or inside loops that stay in [0,7],
so for the 8x8 boards the source builds this getD-based read agrees with
the JavaScript array indexing. -/
def bget (b : Board) (r c : Int) : Square :=
  (b.getD r.toNat []).getD c.toNat none

/-- Writing board[r][c] = v. -/
def bset (b : Board) (r c : Int) (v : Square) : Board :=
  b.set r.toNat ((b.getD r.toNat []).set c.toNat v)

/-- JavaScript test piece === piece.toUpperCase() from the source. -/
def isWhitePiece (p : Char) : Bool := p.toUpper == p

/-- A move record as pushed by makeMove: from, to, piece, capturedPiece
(null when the destination was empty) and a timestamp. The timestamp string
produced by the ambient clock is passed in as a parameter. -/
structure MoveRecord where
  fromSq : Int × Int
  toSq : Int × Int
  piece : Square
  capturedPiece : Square
  timestamp : String
deriving DecidableEq, Repr

/-- The per-game state object built by createNewChessGame. The source
never assigns game.winner (it stays undefined), so no winner field exists
here; the database update models that slot as none. -/
structure Game where
  whitePlayer : String
  blackPlayer : String
  currentTurn : String
  board : Board
  gameStatus : String
  moveHistory : List MoveRecord
deriving DecidableEq, Repr

/-- The standard starting position literal from createNewChessGame. -/
def initialBoard : Board :=
  [ (['r', 'n', 'b', 'q', 'k', 'b', 'n', 'r'].map some),
    (['p', 'p', 'p', 'p', 'p', 'p', 'p', 'p'].map some),
    (List.replicate 8 none),
    (List.replicate 8 none),
    (List.replicate 8 none),
    (List.replicate 8 none),
    (['P', 'P', 'P', 'P', 'P', 'P', 'P', 'P'].map some),
    (['R', 'N', 'B', 'Q', 'K', 'B', 'N', 'R'].map some) ]

/-- createNewChessGame(whitePlayer, blackPlayer) from the source. -/
def createNewChessGame (whitePlayer blackPlayer : String) : Game :=
  { whitePlayer := whitePlayer
    blackPlayer := blackPlayer
    currentTurn := "white"
    board := initialBoard
    gameStatus := "active"
    moveHistory := [] }

/-- Fuel-indexed unfolding of the while loop of isPathClear. The source
loop runs while (currentRow, currentCol) differs from the target, stepping
by (rowStep, colStep). Every call the source makes is axis-aligned or
diagonal with both endpoints in [0,7], so the loop performs at most 7
iterations; fuel 8 is therefore never exhausted on a reachable call and the
fuel-exhaustion branch (returning false) is dead code of the model. -/
def pathClearAux (b : Board) (toRow toCol rowStep colStep : Int)
    (fuel : Nat) (currentRow currentCol : Int) : Bool :=
  if currentRow == toRow && currentCol == toCol then true
  else
    match fuel with
    | 0 => false
    | f + 1 =>
      if bget b currentRow currentCol != none then false
      else pathClearAux b toRow toCol rowStep colStep f
        (currentRow + rowStep) (currentCol + colStep)

/-- isPathClear(board, from, to) from the source: walks from the square
after from toward to and requires every visited square strictly before to
to be null. -/
def isPathClear (board : Board) (fromSq toSq : Int × Int) : Bool :=
  let rowStep : Int := if toSq.1 > fromSq.1 then 1 else if toSq.1 < fromSq.1 then -1 else 0
  let colStep : Int := if toSq.2 > fromSq.2 then 1 else if toSq.2 < fromSq.2 then -1 else 0
  pathClearAux board toSq.1 toSq.2 rowStep colStep 8
    (fromSq.1 + rowStep) (fromSq.2 + colStep)

/-- isValidMove(game, from, to) from the source: bounds check, occupied
source square, piece colour must match the turn, no self-capture, then the
per-piece-type simplified movement rule. -/
def isValidMove (game : Game) (fromSq toSq : Int × Int) : Bool :=
  let fromRow := fromSq.1
  let fromCol := fromSq.2
  let toRow := toSq.1
  let toCol := toSq.2
  if fromRow < 0 || fromRow > 7 || fromCol < 0 || fromCol > 7 ||
      toRow < 0 || toRow > 7 || toCol < 0 || toCol > 7 then false
  else
    match bget game.board fromRow fromCol with
    | none => false
    | some piece =>
      let isWhite := isWhitePiece piece
      if (game.currentTurn == "white" && !isWhite) ||
          (game.currentTurn == "black" && isWhite) then false
      else
        let targetPiece := bget game.board toRow toCol
        if (match targetPiece with
            | some t => isWhitePiece t == isWhite
            | none => false) then false
        else
          let pieceType := piece.toLower
          let rowDiff := (toRow - fromRow).natAbs
          let colDiff := (toCol - fromCol).natAbs
          if pieceType == 'p' then
            let direction : Int := if isWhite then -1 else 1
            let startRow : Int := if isWhite then 6 else 1
            if fromCol == toCol then
              (toRow == fromRow + direction && targetPiece == none) ||
              (fromRow == startRow && toRow == fromRow + 2 * direction &&
                targetPiece == none)
            else
              colDiff == 1 && toRow == fromRow + direction && targetPiece != none
          else if pieceType == 'r' then
            (rowDiff == 0 || colDiff == 0) && isPathClear game.board fromSq toSq
          else if pieceType == 'n' then
            (rowDiff == 2 && colDiff == 1) || (rowDiff == 1 && colDiff == 2)
          else if pieceType == 'b' then
            rowDiff == colDiff && isPathClear game.board fromSq toSq
          else if pieceType == 'q' then
            ((rowDiff == 0 || colDiff == 0) || rowDiff == colDiff) &&
              isPathClear game.board fromSq toSq
          else if pieceType == 'k' then
            decide (rowDiff ≤ 1) && decide (colDiff ≤ 1)
          else false

/-- makeMove(game, from, to) from the source: moves the piece (destination
written first, then the source square cleared, in source order) and appends
the move record. The ISO timestamp string is passed in as now. -/
def makeMove (game : Game) (fromSq toSq : Int × Int) (now : String) : Game :=
  let piece := bget game.board fromSq.1 fromSq.2
  let capturedPiece := bget game.board toSq.1 toSq.2
  let board1 := bset game.board toSq.1 toSq.2 piece
  let board2 := bset board1 fromSq.1 fromSq.2 none
  { game with
      board := board2
      moveHistory := game.moveHistory ++
        [{ fromSq := fromSq, toSq := toSq, piece := piece,
           capturedPiece := capturedPiece, timestamp := now }] }

/-- Payload of db.updateChessGame as called from the "chess move" handler.
The winner slot is game.winner, which the source never assigns: none. -/
structure DbGameUpdate where
  currentTurn : String
  boardState : Board
  gameStatus : String
  moveHistory : List MoveRecord
  winner : Option String
deriving DecidableEq, Repr

/-- Observable side effects of the handlers, in program order: database
writes and socket emissions. chessGameEnded is the global broadcast
io.emit("chess game ended", ...); chessStartAnnouncement stands for the
system chat message about a started game (db.saveMessage plus broadcast),
keeping its data rather than the formatted text. -/
inductive Effect where
  | dbUpdateChessGame (gameId : String) (update : DbGameUpdate)
  | dbCreateChessGame (gameId whitePlayer blackPlayer : String) (boardState : Board)
  | chessMoveMade (socketId : String) (gameId : String) (gameState : Game)
  | chessGameEnded (gameId : String) (winner : String) (reason : String)
  | chessGameStarted (socketId : String) (gameId : String) (gameState : Game)
  | chessStartAnnouncement (inviterUsername responderUsername : String)
  | chessInviteDeclined (socketId : String) (fromUser : Option String)
deriving DecidableEq, Repr

/-- The 64-square scan of checkGameEnd looking for one piece code: rows 0
to 7, columns 0 to 7. -/
def kingPresent (b : Board) (ch : Char) : Bool :=
  (List.range 8).any fun row =>
    (List.range 8).any fun col => bget b (row : Int) (col : Int) == some ch

/-- checkGameEnd(game, gameId) from the source: scans all 64 squares for
each king; a missing white king is checked first and yields black_wins with
a broadcast naming the black player, else a missing black king yields
white_wins naming the white player. Returns the (possibly updated) game
together with the emitted effects; the source mutates the same object the
registry holds, which the caller models by re-registering the result. -/
def checkGameEnd (game : Game) (gameId : String) : Game × List Effect :=
  let whiteKing := kingPresent game.board 'K'
  let blackKing := kingPresent game.board 'k'
  if !whiteKing then
    ({ game with gameStatus := "black_wins" },
      [Effect.chessGameEnded gameId game.blackPlayer "checkmate"])
  else if !blackKing then
    ({ game with gameStatus := "white_wins" },
      [Effect.chessGameEnded gameId game.whitePlayer "checkmate"])
  else (game, [])

/-- The chessGames map of the source (gameId to game state). -/
abbrev Registry := String → Option Game

/-- chessGames.set(gameId, g). -/
def registrySet (games : Registry) (gameId : String) (g : Game) : Registry :=
  fun id => if id == gameId then some g else games id

/-- The activeUsers map of the source in insertion order:
socketId to username pairs. -/
abbrev Users := List (String × String)

/-- activeUsers.get(socketId). -/
def usersGet (users : Users) (socketId : String) : Option String :=
  (users.find? fun e => e.1 == socketId).map Prod.snd

/-- The linear scan Array.from(activeUsers.entries()).find matching a
username, returning the first socket id bound to it. -/
def findSocketByUsername (users : Users) (username : String) : Option String :=
  (users.find? fun e => e.2 == username).map Prod.fst

/-- The socket.on("chess move") handler. Looks up the game and the player;
checks that the actor is the participant of the current turn; validates the
move; on success mutates the game, flips the turn, writes the database
update, re-registers the game, emits "chess move made" to the white and
black sockets that are found, then runs checkGameEnd (whose status update
lands in the shared game object, hence in the registry) and appends its
broadcast. Every rejection path does nothing at all. -/
def chessMoveHandler (games : Registry) (users : Users) (socketId : String)
    (gameId : String) (fromSq toSq : Int × Int) (now : String) :
    Registry × List Effect :=
  match games gameId, usersGet users socketId with
  | some game, some playerUsername =>
    if (game.currentTurn == "white" && game.whitePlayer == playerUsername) ||
        (game.currentTurn == "black" && game.blackPlayer == playerUsername) then
      if isValidMove game fromSq toSq then
        let game1 := makeMove game fromSq toSq now
        let game2 := { game1 with
          currentTurn := if game1.currentTurn == "white" then "black" else "white" }
        let dbWrite := Effect.dbUpdateChessGame gameId
          { currentTurn := game2.currentTurn, boardState := game2.board,
            gameStatus := game2.gameStatus, moveHistory := game2.moveHistory,
            winner := none }
        let games1 := registrySet games gameId game2
        let moveEmits :=
          (match findSocketByUsername users game2.whitePlayer with
            | some s => [Effect.chessMoveMade s gameId game2]
            | none => []) ++
          (match findSocketByUsername users game2.blackPlayer with
            | some s => [Effect.chessMoveMade s gameId game2]
            | none => [])
        let endResult := checkGameEnd game2 gameId
        (registrySet games1 gameId endResult.1, dbWrite :: moveEmits ++ endResult.2)
      else (games, [])
    else (games, [])
  | _, _ => (games, [])

/-- The acceptance condition of the "chess move" handler: game present,
player known, actor is the turn participant, move valid. The handler
changes state and emits effects exactly when this holds. Note that
game.gameStatus is not consulted anywhere. -/
def moveAccepted (games : Registry) (users : Users) (socketId : String)
    (gameId : String) (fromSq toSq : Int × Int) : Bool :=
  match games gameId, usersGet users socketId with
  | some game, some playerUsername =>
    ((game.currentTurn == "white" && game.whitePlayer == playerUsername) ||
      (game.currentTurn == "black" && game.blackPlayer == playerUsername)) &&
      isValidMove game fromSq toSq
  | _, _ => false

/-- The socket.on("chess invite response") handler. On an accepted invite
with a known responder and a reachable inviter socket: builds the initial
game, writes db.createChessGame, registers the game under the supplied
gameId, emits "chess game started" to the responder socket and the inviter
socket, and records plus broadcasts the system start message. Otherwise a
reachable inviter socket receives "chess invite declined". -/
def chessInviteResponseHandler (games : Registry) (users : Users)
    (socketId : String) (inviterUsername gameId : String) (accepted : Bool) :
    Registry × List Effect :=
  let responderUsername := usersGet users socketId
  let inviterSocketId := findSocketByUsername users inviterUsername
  match accepted, responderUsername, inviterSocketId with
  | true, some responder, some inviterSock =>
    let gameState := createNewChessGame inviterUsername responder
    (registrySet games gameId gameState,
      [Effect.dbCreateChessGame gameId inviterUsername responder gameState.board,
       Effect.chessGameStarted socketId gameId gameState,
       Effect.chessGameStarted inviterSock gameId gameState,
       Effect.chessStartAnnouncement inviterUsername responder])
  | _, _, some inviterSock =>
    (games, [Effect.chessInviteDeclined inviterSock (usersGet users socketId)])
  | _, _, none => (games, [])

/-- One inbound "chess move" event: the sending socket and the payload. -/
structure MoveEv where
  socketId : String
  gameId : String
  fromSq : Int × Int
  toSq : Int × Int
  now : String

/-- Folding a sequence of "chess move" events through the handler. -/
def runMoves (games : Registry) (users : Users) : List MoveEv → Registry
  | [] => games
  | e :: rest =>
    runMoves (chessMoveHandler games users e.socketId e.gameId e.fromSq e.toSq e.now).1
      users rest

/-- Number of events of a sequence accepted by the handler, evaluated
against the evolving registry. -/
def countAccepted (games : Registry) (users : Users) : List MoveEv → Nat
  | [] => 0
  | e :: rest =>
    (if moveAccepted games users e.socketId e.gameId e.fromSq e.toSq then 1 else 0) +
      countAccepted (chessMoveHandler games users e.socketId e.gameId e.fromSq e.toSq e.now).1
        users rest

/-- Turn flip performed by the handler after an accepted move. -/
def flipColor (c : String) : String := if c == "white" then "black" else "white"

/-- True when the effect is a durable chess-game write. -/
def isDbEffect : Effect → Bool
  | Effect.dbUpdateChessGame _ _ => true
  | Effect.dbCreateChessGame _ _ _ _ => true
  | _ => false

/-- The strictly-between squares of an axis-aligned or diagonal move: the
max-metric distance n determines the step direction per coordinate, and the
squares at 1 .. n-1 steps from the source lie strictly between. -/
def betweenSquares (fromSq toSq : Int × Int) : List (Int × Int) :=
  let n := max (toSq.1 - fromSq.1).natAbs (toSq.2 - fromSq.2).natAbs
  let rowStep : Int := if toSq.1 > fromSq.1 then 1 else if toSq.1 < fromSq.1 then -1 else 0
  let colStep : Int := if toSq.2 > fromSq.2 then 1 else if toSq.2 < fromSq.2 then -1 else 0
  (List.range (n - 1)).map fun (i : Nat) =>
    (fromSq.1 + ((i : Int) + 1) * rowStep, fromSq.2 + ((i : Int) + 1) * colStep)

/-- The state the "chess move" handler computes for an accepted move before
checkGameEnd runs: the board mutation and history append of makeMove,
then the turn flip. -/
def postMove (game : Game) (fromSq toSq : Int × Int) (now : String) : Game :=
  let game1 := makeMove game fromSq toSq now
  { game1 with
    currentTurn := if game1.currentTurn == "white" then "black" else "white" }

/-- The registry and effect list the "chess move" handler produces on an
accepted move, written out once so that the acceptance lemma can name it. -/
def acceptedResult (games : Registry) (users : Users) (gameId : String)
    (game : Game) (fromSq toSq : Int × Int) (now : String) :
    Registry × List Effect :=
  let game2 := postMove game fromSq toSq now
  let endResult := checkGameEnd game2 gameId
  (registrySet (registrySet games gameId game2) gameId endResult.1,
    Effect.dbUpdateChessGame gameId
      { currentTurn := game2.currentTurn, boardState := game2.board,
        gameStatus := game2.gameStatus, moveHistory := game2.moveHistory,
        winner := none } ::
    ((match findSocketByUsername users game2.whitePlayer with
      | some s => [Effect.chessMoveMade s gameId game2]
      | none => []) ++
     (match findSocketByUsername users game2.blackPlayer with
      | some s => [Effect.chessMoveMade s gameId game2]
      | none => [])) ++ endResult.2)

/-- A registry holding exactly one game. -/
def regOf (gameId : String) (g : Game) : Registry :=
  fun id => if id == gameId then some g else none

/-- True exactly on a durable chess-game update carrying the given status. -/
def dbWriteHasStatus (st : String) : Effect → Bool
  | Effect.dbUpdateChessGame _ u => u.gameStatus == st
  | _ => false

/-- Two connected users, alice on socket s1 and bob on socket s2. -/
def usersAB : Users := [("s1", "alice"), ("s2", "bob")]

/-- A fresh alice-vs-bob game whose status was forced to a terminal value,
still registered under g1, as happens after checkGameEnd fires. -/
def c1Game : Game := { createNewChessGame "alice" "bob" with gameStatus := "black_wins" }

/-- Registry holding only the terminal game c1Game. -/
def c1Reg : Registry := regOf "g1" c1Game

/-- The starting position with a black pawn dropped on square (5,4),
directly in front of the white pawn on (6,4). -/
def c2Game : Game :=
  { createNewChessGame "alice" "bob" with board := bset initialBoard 5 4 (some 'p') }

/-- An empty board row. -/
def emptyRow : List Square := List.replicate 8 none

/-- A sparse position: black king on (0,0), white rook on (7,0) with a
clear file between them, white king on (7,7). White to move can capture
the black king. -/
def c3Board : Board :=
  [ (some 'k' :: List.replicate 7 none),
    emptyRow, emptyRow, emptyRow, emptyRow, emptyRow, emptyRow,
    (some 'R' :: (List.replicate 6 none ++ [some 'K'])) ]

/-- The game played on c3Board, white (alice) to move. -/
def c3Game : Game :=
  { whitePlayer := "alice"
    blackPlayer := "bob"
    currentTurn := "white"
    board := c3Board
    gameStatus := "active"
    moveHistory := [] }

/-- Registry holding only c3Game under g3. -/
def c3Reg : Registry := regOf "g3" c3Game

/-- A game on an empty board, used to evaluate checkGameEnd when both
kings are absent. -/
def noKingsGame : Game :=
  { createNewChessGame "alice" "bob" with
      board := List.replicate 8 emptyRow }

/-- A fresh alice-vs-bob game registered under g1. -/
def freshReg : Registry := regOf "g1" (createNewChessGame "alice" "bob")

/-- A single inbound move event: alice plays the pawn double step
(6,4) to (4,4) in game g1. -/
def ev1 : MoveEv :=
  { socketId := "s1", gameId := "g1", fromSq := (6, 4), toSq := (4, 4), now := "t1" }

/-- The pawn direction computed inside isValidMove: white pawns move toward
row 0, black pawns toward row 7. -/
def pawnDir (p : Char) : Int := if isWhitePiece p then -1 else 1

/-- The pawn start row computed inside isValidMove: 6 for white, 1 for
black. -/
def pawnStartRow (p : Char) : Int := if isWhitePiece p then 6 else 1

/-- Helper: walking natAbs many unit steps of the correct sign reaches the
target coordinate. -/
lemma reach_coord (a b : Int) :
    b = a + ((b - a).natAbs : Int) * (if b > a then (1:Int) else if b < a then -1 else 0) := by
  rcases lt_trichotomy a b with h | h | h
  · rw [if_pos h]; omega
  · rw [if_neg (by omega), if_neg (by omega)]; omega
  · rw [if_neg (by omega), if_pos h]; omega

/-- Helper: the step of an unchanged coordinate is zero. -/
lemma step_zero (a b : Int) (h : b = a) :
    (if b > a then (1:Int) else if b < a then -1 else 0) = 0 := by
  rw [if_neg (by omega), if_neg (by omega)]

/-- Helper: the step of a changing coordinate is nonzero. -/
lemma step_ne (a b : Int) (h : b ≠ a) :
    (if b > a then (1:Int) else if b < a then -1 else 0) ≠ 0 := by
  rcases lt_trichotomy a b with h' | h' | h'
  · rw [if_pos h']; omega
  · exact absurd h'.symm h
  · rw [if_neg (by omega), if_pos h']; omega

/-- Helper: if the loop of isPathClear reports a clear path and the target
lies exactly n steps ahead with at least one coordinate moving, then every
square visited before the target is empty. The loop can only return true by
reaching the target, so no fuel bound is needed here. -/
lemma pathClearAux_between (b : Board) (rs cs : Int) :
    ∀ (fuel n : Nat) (r c toR toC : Int),
      toR = r + (n : Int) * rs → toC = c + (n : Int) * cs →
      (rs ≠ 0 ∨ cs ≠ 0) →
      pathClearAux b toR toC rs cs fuel r c = true →
      ∀ i : Nat, i < n → bget b (r + (i : Int) * rs) (c + (i : Int) * cs) = none := by
  intro fuel
  induction fuel with
  | zero =>
    intro n r c toR toC hr hc hstep h i hi
    simp only [pathClearAux] at h
    split at h
    · rename_i hcond
      simp only [Bool.and_eq_true, beq_iff_eq] at hcond
      obtain ⟨h1, h2⟩ := hcond
      exfalso
      rcases hstep with hs | hs
      · have hz : (n : Int) * rs = 0 := by omega
        rcases mul_eq_zero.mp hz with h' | h'
        · have : n = 0 := by exact_mod_cast h'
          omega
        · exact hs h'
      · have hz : (n : Int) * cs = 0 := by omega
        rcases mul_eq_zero.mp hz with h' | h'
        · have : n = 0 := by exact_mod_cast h'
          omega
        · exact hs h'
    · exact absurd h (by simp)
  | succ f ihf =>
    intro n r c toR toC hr hc hstep h i hi
    cases n with
    | zero => omega
    | succ m =>
      have hne : ¬((r == toR && c == toC) = true) := by
        intro hcond
        simp only [Bool.and_eq_true, beq_iff_eq] at hcond
        obtain ⟨h1, h2⟩ := hcond
        rcases hstep with hs | hs
        · have hz : ((m + 1 : Nat) : Int) * rs = 0 := by omega
          rcases mul_eq_zero.mp hz with h' | h'
          · have : (m + 1 : Nat) = 0 := by exact_mod_cast h'
            omega
          · exact hs h'
        · have hz : ((m + 1 : Nat) : Int) * cs = 0 := by omega
          rcases mul_eq_zero.mp hz with h' | h'
          · have : (m + 1 : Nat) = 0 := by exact_mod_cast h'
            omega
          · exact hs h'
      simp only [pathClearAux] at h
      rw [if_neg hne] at h
      cases hocc : bget b r c with
      | some x => rw [hocc] at h; simp at h
      | none =>
        rw [hocc] at h
        simp only [bne_self_eq_false, Bool.false_eq_true, if_false] at h
        have hr' : toR = (r + rs) + (m : Int) * rs := by rw [hr]; push_cast; ring
        have hc' : toC = (c + cs) + (m : Int) * cs := by rw [hc]; push_cast; ring
        have ih' := ihf m (r + rs) (c + cs) toR toC hr' hc' hstep h
        cases i with
        | zero => simpa using hocc
        | succ j =>
          have hj : j < m := by omega
          have hres := ih' j hj
          have e1 : (r + rs) + (j : Int) * rs = r + ((j + 1 : Nat) : Int) * rs := by
            push_cast; ring
          have e2 : (c + cs) + (j : Int) * cs = c + ((j + 1 : Nat) : Int) * cs := by
            push_cast; ring
          rw [e1, e2] at hres
          exact hres

/-- Helper: for an axis-aligned or diagonal move, a clear path in the sense
of isPathClear means every square strictly between source and destination
is empty. -/
lemma isPathClear_between (b : Board) (fromSq toSq : Int × Int)
    (halign : (toSq.1 - fromSq.1).natAbs = 0 ∨ (toSq.2 - fromSq.2).natAbs = 0 ∨
      (toSq.1 - fromSq.1).natAbs = (toSq.2 - fromSq.2).natAbs)
    (h : isPathClear b fromSq toSq = true) :
    ∀ sq ∈ betweenSquares fromSq toSq, bget b sq.1 sq.2 = none := by
  obtain ⟨fr, fc⟩ := fromSq
  obtain ⟨tr, tc⟩ := toSq
  intro sq hsq
  simp only [betweenSquares] at hsq
  obtain ⟨i, hi, heq⟩ := List.mem_map.mp hsq
  clear hsq
  rw [List.mem_range] at hi
  simp only [isPathClear] at h
  simp only at halign h
  set RS : Int := if tr > fr then 1 else if tr < fr then -1 else 0 with hRS
  set CS : Int := if tc > fc then 1 else if tc < fc then -1 else 0 with hCS
  set n : Nat := max (tr - fr).natAbs (tc - fc).natAbs with hn
  have hn2 : 2 ≤ n := by omega
  have hrow : tr = fr + ((tr - fr).natAbs : Int) * RS := by rw [hRS]; exact reach_coord fr tr
  have hcol : tc = fc + ((tc - fc).natAbs : Int) * CS := by rw [hCS]; exact reach_coord fc tc
  have hrow' : tr = fr + (n : Int) * RS := by
    rcases halign with h0 | h0 | h0
    · have htf : tr = fr := by omega
      have hz : RS = 0 := by rw [hRS]; exact step_zero fr tr htf
      rw [hz, mul_zero, add_zero]; exact htf
    · have he : n = (tr - fr).natAbs := by omega
      rw [he]; exact hrow
    · have he : n = (tr - fr).natAbs := by omega
      rw [he]; exact hrow
  have hcol' : tc = fc + (n : Int) * CS := by
    rcases halign with h0 | h0 | h0
    · have he : n = (tc - fc).natAbs := by omega
      rw [he]; exact hcol
    · have htf : tc = fc := by omega
      have hz : CS = 0 := by rw [hCS]; exact step_zero fc tc htf
      rw [hz, mul_zero, add_zero]; exact htf
    · have he : n = (tc - fc).natAbs := by omega
      rw [he]; exact hcol
  have hstep : RS ≠ 0 ∨ CS ≠ 0 := by
    by_cases htr : tr = fr
    · right
      have htc : tc ≠ fc := by omega
      rw [hCS]; exact step_ne fc tc htc
    · left
      rw [hRS]; exact step_ne fr tr htr
  have hA : tr = (fr + RS) + ((n - 1 : Nat) : Int) * RS := by
    rw [hrow', Nat.cast_sub (by omega : 1 ≤ n)]; push_cast; ring
  have hB : tc = (fc + CS) + ((n - 1 : Nat) : Int) * CS := by
    rw [hcol', Nat.cast_sub (by omega : 1 ≤ n)]; push_cast; ring
  have key := pathClearAux_between b RS CS 8 (n - 1) (fr + RS) (fc + CS) tr tc hA hB hstep h i hi
  have e1 : (fr + RS) + (i : Int) * RS = fr + ((i : Int) + 1) * RS := by ring
  have e2 : (fc + CS) + (i : Int) * CS = fc + ((i : Int) + 1) * CS := by ring
  rw [e1, e2] at key
  rw [← heq]
  exact key

/-- Helper: checkGameEnd only ever rewrites gameStatus; every other field
of the game survives unchanged. -/
lemma checkGameEnd_fst_fields (g : Game) (gid : String) :
    (checkGameEnd g gid).1.currentTurn = g.currentTurn ∧
    (checkGameEnd g gid).1.whitePlayer = g.whitePlayer ∧
    (checkGameEnd g gid).1.blackPlayer = g.blackPlayer ∧
    (checkGameEnd g gid).1.moveHistory = g.moveHistory ∧
    (checkGameEnd g gid).1.board = g.board := by
  simp only [checkGameEnd]
  split_ifs <;> simp

/-- Helper: the effects of checkGameEnd are empty or a single
game-ended broadcast with reason checkmate. -/
lemma checkGameEnd_snd_shape (g : Game) (gid : String) :
    (checkGameEnd g gid).2 = [] ∨
    ∃ w, (checkGameEnd g gid).2 = [Effect.chessGameEnded gid w "checkmate"] := by
  simp only [checkGameEnd]
  split_ifs <;> simp

/-- Helper: on a present game, known player, correct turn and valid move,
the chess-move handler produces exactly acceptedResult. -/
lemma chessMoveHandler_accepted (now : String)
    {games : Registry} {users : Users} {socketId gameId : String}
    {fromSq toSq : Int × Int} {game : Game} {player : String}
    (hg : games gameId = some game) (hp : usersGet users socketId = some player)
    (hturn : ((game.currentTurn == "white" && game.whitePlayer == player) ||
      (game.currentTurn == "black" && game.blackPlayer == player)) = true)
    (hv : isValidMove game fromSq toSq = true) :
    chessMoveHandler games users socketId gameId fromSq toSq now =
      acceptedResult games users gameId game fromSq toSq now := by
  unfold chessMoveHandler acceptedResult postMove
  rw [hg, hp]
  simp only [hturn, hv, if_true]

/-- Helper: when the acceptance condition fails, the handler leaves the
registry untouched and emits nothing. -/
lemma chessMoveHandler_rejected
    {games : Registry} {users : Users} {socketId gameId : String}
    {fromSq toSq : Int × Int} (now : String)
    (h : moveAccepted games users socketId gameId fromSq toSq = false) :
    chessMoveHandler games users socketId gameId fromSq toSq now = (games, []) := by
  cases hg : games gameId with
  | none => simp [chessMoveHandler, hg]
  | some game =>
    cases hp : usersGet users socketId with
    | none => simp [chessMoveHandler, hg, hp]
    | some player =>
      simp only [moveAccepted, hg, hp, Bool.and_eq_false_iff] at h
      rcases h with h | h
      · simp [chessMoveHandler, hg, hp, h]
      · simp only [chessMoveHandler, hg, hp, h]
        split <;> simp

/-- Helper: unpacking the acceptance condition. -/
lemma moveAccepted_elim
    {games : Registry} {users : Users} {socketId gameId : String}
    {fromSq toSq : Int × Int}
    (h : moveAccepted games users socketId gameId fromSq toSq = true) :
    ∃ game player, games gameId = some game ∧ usersGet users socketId = some player ∧
      ((game.currentTurn == "white" && game.whitePlayer == player) ||
        (game.currentTurn == "black" && game.blackPlayer == player)) = true ∧
      isValidMove game fromSq toSq = true := by
  cases hg : games gameId with
  | none => simp [moveAccepted, hg] at h
  | some game =>
    cases hp : usersGet users socketId with
    | none => simp [moveAccepted, hg, hp] at h
    | some player =>
      simp only [moveAccepted, hg, hp, Bool.and_eq_true] at h
      exact ⟨game, player, rfl, rfl, h.1, h.2⟩

/-- Helper: the turn after postMove is the flipped turn. -/
lemma postMove_currentTurn (game : Game) (fs ts : Int × Int) (now : String) :
    (postMove game fs ts now).currentTurn = flipColor game.currentTurn := rfl

/-- Helper: postMove appends exactly one record to the history. -/
lemma postMove_moveHistory (game : Game) (fs ts : Int × Int) (now : String) :
    (postMove game fs ts now).moveHistory = game.moveHistory ++
      [{ fromSq := fs, toSq := ts, piece := bget game.board fs.1 fs.2,
         capturedPiece := bget game.board ts.1 ts.2, timestamp := now }] := rfl

/-- Helper: after an accepted move the registry holds the post-move,
post-terminal-check state under the same game id. -/
lemma acceptedResult_fst (games : Registry) (users : Users) (gameId : String)
    (game : Game) (fs ts : Int × Int) (now : String) :
    (acceptedResult games users gameId game fs ts now).1 gameId =
      some (checkGameEnd (postMove game fs ts now) gameId).1 := by
  simp [acceptedResult, registrySet]

/-- Helper: the effect list of an accepted move is the durable write
followed only by move broadcasts of the written state and possibly one
game-ended broadcast. -/
lemma acceptedResult_snd_shape (games : Registry) (users : Users) (gameId : String)
    (game : Game) (fs ts : Int × Int) (now : String) :
    ∃ rest, (acceptedResult games users gameId game fs ts now).2 =
      Effect.dbUpdateChessGame gameId
        { currentTurn := (postMove game fs ts now).currentTurn,
          boardState := (postMove game fs ts now).board,
          gameStatus := (postMove game fs ts now).gameStatus,
          moveHistory := (postMove game fs ts now).moveHistory,
          winner := none } :: rest ∧
      ∀ e ∈ rest, (∃ s, e = Effect.chessMoveMade s gameId (postMove game fs ts now)) ∨
        (∃ w, e = Effect.chessGameEnded gameId w "checkmate") := by
  refine ⟨_, rfl, ?_⟩
  intro e he
  rcases List.mem_append.mp he with he | he
  · left
    cases hw : findSocketByUsername users (postMove game fs ts now).whitePlayer <;>
      cases hb : findSocketByUsername users (postMove game fs ts now).blackPlayer <;>
      rw [hw, hb] at he <;> simp at he <;>
      first
      | (exact ⟨_, he⟩)
      | (rcases he with he | he <;> exact ⟨_, he⟩)
  · rcases checkGameEnd_snd_shape (postMove game fs ts now) gameId with h0 | ⟨w, h0⟩
    · rw [h0] at he; simp at he
    · rw [h0] at he; simp at he
      exact Or.inr ⟨w, he⟩

/-- Helper: iterating the turn flip from white gives white exactly at even
counts. -/
lemma flipColor_iterate_white :
    ∀ n : Nat, flipColor^[n] "white" = if n % 2 = 0 then "white" else "black" := by
  intro n
  induction n with
  | zero => rfl
  | succ m ih =>
    rw [Function.iterate_succ_apply', ih]
    by_cases h : m % 2 = 0
    · have h2 : ¬((m + 1) % 2 = 0) := by omega
      simp [h, h2, flipColor]
    · have h2 : (m + 1) % 2 = 0 := by omega
      simp [h, h2, flipColor]

/-- Helper: over any sequence of move events addressed to one game, the
final turn is the accepted-move count of flips of the starting turn, and
the history grows by exactly the accepted-move count. -/
lemma runMoves_spec (users : Users) (g : String) :
    ∀ (events : List MoveEv), (∀ e ∈ events, e.gameId = g) →
    ∀ (games : Registry) (game : Game), games g = some game →
    ∃ game', runMoves games users events g = some game' ∧
      game'.currentTurn = flipColor^[countAccepted games users events] game.currentTurn ∧
      game'.moveHistory.length = game.moveHistory.length + countAccepted games users events := by
  intro events
  induction events with
  | nil =>
    intro _ games game hg
    exact ⟨game, hg, rfl, by simp [countAccepted]⟩
  | cons e rest ih =>
    intro hall games game hg
    have hgid : e.gameId = g := hall e (by simp)
    have hrest : ∀ x ∈ rest, x.gameId = g := fun x hx => hall x (by simp [hx])
    by_cases hacc : moveAccepted games users e.socketId e.gameId e.fromSq e.toSq = true
    · obtain ⟨game0, player, hgm, hp, hturn, hv⟩ := moveAccepted_elim hacc
      rw [hgid, hg] at hgm
      obtain rfl : game = game0 := by exact Option.some.inj hgm
      have hgm2 : games e.gameId = some game := by rw [hgid]; exact hg
      have heq := chessMoveHandler_accepted e.now hgm2 hp hturn hv
      have hreg : (chessMoveHandler games users e.socketId e.gameId e.fromSq e.toSq e.now).1 g =
          some (checkGameEnd (postMove game e.fromSq e.toSq e.now) e.gameId).1 := by
        rw [heq, ← hgid]
        exact acceptedResult_fst games users e.gameId game e.fromSq e.toSq e.now
      obtain ⟨game', h1, h2, h3⟩ := ih hrest _ _ hreg
      refine ⟨game', ?_, ?_, ?_⟩
      · rw [runMoves]; exact h1
      · rw [countAccepted, if_pos hacc, h2]
        have hct : (checkGameEnd (postMove game e.fromSq e.toSq e.now) e.gameId).1.currentTurn =
            flipColor game.currentTurn := by
          rw [(checkGameEnd_fst_fields _ _).1, postMove_currentTurn]
        rw [hct, ← Function.iterate_succ_apply]
        congr 1
        omega
      · rw [countAccepted, if_pos hacc, h3]
        have hlen : (checkGameEnd (postMove game e.fromSq e.toSq e.now) e.gameId).1.moveHistory.length =
            game.moveHistory.length + 1 := by
          rw [(checkGameEnd_fst_fields _ _).2.2.2.1, postMove_moveHistory]
          simp
        rw [hlen]
        omega
    · have hacc2 : moveAccepted games users e.socketId e.gameId e.fromSq e.toSq = false := by
        simpa using hacc
      have heq := chessMoveHandler_rejected e.now hacc2
      obtain ⟨game', h1, h2, h3⟩ := ih hrest games game hg
      refine ⟨game', ?_, ?_, ?_⟩
      · rw [runMoves, heq]; exact h1
      · rw [countAccepted, if_neg (by simp [hacc2]), heq]
        simpa using h2
      · rw [countAccepted, if_neg (by simp [hacc2]), heq]
        simpa using h3

/-- C1 counterexample: the claim that terminal games reject all moves is
false on the code. The game c1Game has terminal status black_wins, yet a
white pawn move is accepted by the chess-move handler: the board changes,
a record is appended to the history, broadcasts are emitted, and the
status is still the old terminal one in the written state. The handler
never consults gameStatus. -/
theorem c1_counterexample_terminal_game_accepts_move :
    c1Game.gameStatus = "black_wins" ∧
    moveAccepted c1Reg usersAB "s1" "g1" (6, 4) (5, 4) = true ∧
    ((chessMoveHandler c1Reg usersAB "s1" "g1" (6, 4) (5, 4) "t1").1 "g1").map Game.board ≠
      some c1Game.board ∧
    ((chessMoveHandler c1Reg usersAB "s1" "g1" (6, 4) (5, 4) "t1").1 "g1").map
      (fun g => g.moveHistory.length) = some 1 ∧
    ((chessMoveHandler c1Reg usersAB "s1" "g1" (6, 4) (5, 4) "t1").1 "g1").map
      Game.gameStatus = some "black_wins" ∧
    (chessMoveHandler c1Reg usersAB "s1" "g1" (6, 4) (5, 4) "t1").2 ≠ [] := by
  decide

/-- C1 (amended): the chess-move handler never reads gameStatus. A game
whose status is terminal but which is still in the registry accepts any
move passing the existence, turn and validity checks, and its history and
turn are mutated exactly as for an active game. -/
theorem c1_terminal_status_never_consulted :
    ∀ (games : Registry) (users : Users) (socketId gameId : String)
      (fromSq toSq : Int × Int) (now : String) (game : Game),
    games gameId = some game →
    game.gameStatus ≠ "active" →
    moveAccepted games users socketId gameId fromSq toSq = true →
    (chessMoveHandler games users socketId gameId fromSq toSq now).2 ≠ [] ∧
    ∃ game', (chessMoveHandler games users socketId gameId fromSq toSq now).1 gameId = some game' ∧
      game'.moveHistory.length = game.moveHistory.length + 1 ∧
      game'.currentTurn = flipColor game.currentTurn := by
  intro games users socketId gameId fs ts now game hg hstatus hacc
  obtain ⟨game0, player, hg0, hp, hturn, hv⟩ := moveAccepted_elim hacc
  rw [hg] at hg0
  obtain rfl : game = game0 := Option.some.inj hg0
  rw [chessMoveHandler_accepted now hg hp hturn hv]
  constructor
  · obtain ⟨rest, hshape, _⟩ := acceptedResult_snd_shape games users gameId game fs ts now
    rw [hshape]
    simp
  · refine ⟨(checkGameEnd (postMove game fs ts now) gameId).1,
      acceptedResult_fst games users gameId game fs ts now, ?_, ?_⟩
    · rw [(checkGameEnd_fst_fields _ _).2.2.2.1, postMove_moveHistory]
      simp
    · rw [(checkGameEnd_fst_fields _ _).1, postMove_currentTurn]

/-- C1 witness: the amended terminal-game property evaluated on the
concrete terminal game c1Game with the pawn move (6,4) to (5,4). -/
theorem c1_terminal_status_never_consulted_witness :
    (chessMoveHandler c1Reg usersAB "s1" "g1" (6, 4) (5, 4) "t2").2 ≠ [] ∧
    ∃ game', (chessMoveHandler c1Reg usersAB "s1" "g1" (6, 4) (5, 4) "t2").1 "g1" = some game' ∧
      game'.moveHistory.length = c1Game.moveHistory.length + 1 ∧
      game'.currentTurn = flipColor c1Game.currentTurn :=
  c1_terminal_status_never_consulted c1Reg usersAB "s1" "g1" (6, 4) (5, 4) "t2" c1Game
    rfl (by decide) (by decide)

/-- C2 counterexample: the claim that a pawn double step requires the
intermediate square to be empty is false on the code. In c2Game a black
pawn sits on (5,4) directly in front of the white pawn on (6,4), the
destination (4,4) is empty, and the double step is nevertheless accepted:
the source only checks the destination square. -/
theorem c2_counterexample_double_step_over_piece :
    bget c2Game.board 5 4 = some 'p' ∧
    bget c2Game.board 4 4 = none ∧
    bget c2Game.board 6 4 = some 'P' ∧
    isValidMove c2Game (6, 4) (4, 4) = true := by
  decide

/-- C2 (amended): a legal pawn move is one square straight forward onto an
empty square, or two squares straight forward from the start row onto an
empty destination (the intermediate square is not required to be empty),
or one square diagonally forward capturing an opposing piece. In
particular a pawn never moves backward and never captures straight
ahead. -/
theorem c2_pawn_move_shapes :
    ∀ (game : Game) (fromSq toSq : Int × Int) (p : Char),
    isValidMove game fromSq toSq = true →
    bget game.board fromSq.1 fromSq.2 = some p →
    p.toLower = 'p' →
    ((toSq.2 = fromSq.2 ∧ toSq.1 = fromSq.1 + pawnDir p ∧
        bget game.board toSq.1 toSq.2 = none) ∨
     (toSq.2 = fromSq.2 ∧ fromSq.1 = pawnStartRow p ∧
        toSq.1 = fromSq.1 + 2 * pawnDir p ∧
        bget game.board toSq.1 toSq.2 = none) ∨
     ((toSq.2 - fromSq.2).natAbs = 1 ∧ toSq.1 = fromSq.1 + pawnDir p ∧
        ∃ q, bget game.board toSq.1 toSq.2 = some q ∧
          isWhitePiece q ≠ isWhitePiece p)) := by
  intro game fs ts p hv hp hpt
  simp only [isValidMove, hp] at hv
  split at hv
  · exact absurd hv (by simp)
  · split at hv
    · exact absurd hv (by simp)
    · split at hv
      · exact absurd hv (by simp)
      · rename_i hsc
        simp only [hpt] at hv
        simp at hv
        simp only [pawnDir, pawnStartRow]
        split at hv
        · rename_i hcol
          rcases hv with ⟨h1, h2⟩ | ⟨⟨hsr, hts⟩, hempty⟩
          · exact Or.inl ⟨hcol.symm, h1, h2⟩
          · refine Or.inr (Or.inl ⟨hcol.symm, hsr, ?_, hempty⟩)
            by_cases hw : isWhitePiece p = true <;> simp [hw] at hts ⊢ <;> omega
        · rename_i hcol
          obtain ⟨⟨hd1, hd2⟩, hocc⟩ := hv
          obtain ⟨q, hq⟩ := Option.ne_none_iff_exists'.mp hocc
          rw [hq] at hsc
          simp only [beq_iff_eq] at hsc
          exact Or.inr (Or.inr ⟨hd1, hd2, q, hq, fun h => hsc (by rw [h])⟩)

/-- C2 witness: the pawn characterization evaluated on the single forward
step (6,4) to (5,4) of the white pawn in the initial position. -/
theorem c2_pawn_move_shapes_witness :
    (((5 : Int), (4 : Int)).2 = ((6 : Int), (4 : Int)).2 ∧
      ((5 : Int), (4 : Int)).1 = ((6 : Int), (4 : Int)).1 + pawnDir 'P' ∧
      bget (createNewChessGame "alice" "bob").board 5 4 = none) ∨
    (((5 : Int), (4 : Int)).2 = ((6 : Int), (4 : Int)).2 ∧
      ((6 : Int), (4 : Int)).1 = pawnStartRow 'P' ∧
      ((5 : Int), (4 : Int)).1 = ((6 : Int), (4 : Int)).1 + 2 * pawnDir 'P' ∧
      bget (createNewChessGame "alice" "bob").board 5 4 = none) ∨
    ((((5 : Int), (4 : Int)).2 - ((6 : Int), (4 : Int)).2).natAbs = 1 ∧
      ((5 : Int), (4 : Int)).1 = ((6 : Int), (4 : Int)).1 + pawnDir 'P' ∧
      ∃ q, bget (createNewChessGame "alice" "bob").board 5 4 = some q ∧
        isWhitePiece q ≠ isWhitePiece 'P') :=
  c2_pawn_move_shapes (createNewChessGame "alice" "bob") (6, 4) (5, 4) 'P'
    (by decide) (by decide) (by decide)

/-- C3 counterexample: the claim that the durable record is at least as
current as the last broadcast state, including the game-ended broadcast,
is false on the code. When the white rook captures the black king in
c3Game, the trace broadcasts chess game ended with winner alice and the
registry ends at status white_wins, yet every durable write in the trace
still carries status active: checkGameEnd runs only after the write, and
its status update is never persisted. -/
theorem c3_counterexample_terminal_status_broadcast_unpersisted :
    ((chessMoveHandler c3Reg usersAB "s1" "g3" (7, 0) (0, 0) "t1").2).contains
      (Effect.chessGameEnded "g3" "alice" "checkmate") = true ∧
    ((chessMoveHandler c3Reg usersAB "s1" "g3" (7, 0) (0, 0) "t1").2).all
      (fun e => !(dbWriteHasStatus "white_wins" e)) = true ∧
    ((chessMoveHandler c3Reg usersAB "s1" "g3" (7, 0) (0, 0) "t1").1 "g3").map
      Game.gameStatus = some "white_wins" := by
  decide

/-- C3 (amended): for every accepted move the durable write is the first
effect of the handler, no later durable write occurs in the same handler
run, and every chess-move-made broadcast carries exactly the written
state; the terminal detector runs only after the write, so a game-ended
broadcast may announce a terminal status that the durable snapshot of
this run does not contain. -/
theorem c3_write_precedes_move_broadcast :
    ∀ (games : Registry) (users : Users) (socketId gameId : String)
      (fromSq toSq : Int × Int) (now : String),
    moveAccepted games users socketId gameId fromSq toSq = true →
    ∃ u rest, (chessMoveHandler games users socketId gameId fromSq toSq now).2 =
        Effect.dbUpdateChessGame gameId u :: rest ∧
      (∀ e ∈ rest, isDbEffect e = false) ∧
      (∀ s g st, Effect.chessMoveMade s g st ∈ rest →
        u.currentTurn = st.currentTurn ∧ u.boardState = st.board ∧
        u.gameStatus = st.gameStatus ∧ u.moveHistory = st.moveHistory) := by
  intro games users socketId gameId fs ts now hacc
  obtain ⟨game, player, hg, hp, hturn, hv⟩ := moveAccepted_elim hacc
  rw [chessMoveHandler_accepted now hg hp hturn hv]
  obtain ⟨rest, hshape, hmem⟩ := acceptedResult_snd_shape games users gameId game fs ts now
  refine ⟨_, rest, hshape, ?_, ?_⟩
  · intro e he
    rcases hmem e he with ⟨s, rfl⟩ | ⟨w, rfl⟩ <;> rfl
  · intro s g st hst
    rcases hmem _ hst with ⟨s2, heq⟩ | ⟨w, heq⟩
    · obtain ⟨rfl, rfl, rfl⟩ : s = s2 ∧ g = gameId ∧ st = postMove game fs ts now := by
        injection heq with h1 h2 h3
        exact ⟨h1, h2, h3⟩
      exact ⟨rfl, rfl, rfl, rfl⟩
    · exact absurd heq (by simp)

/-- C3 witness: the write-before-broadcast shape evaluated on the concrete
king-capturing rook move in c3Game. -/
theorem c3_write_precedes_move_broadcast_witness :
    ∃ u rest, (chessMoveHandler c3Reg usersAB "s1" "g3" (7, 0) (0, 0) "t9").2 =
        Effect.dbUpdateChessGame "g3" u :: rest ∧
      (∀ e ∈ rest, isDbEffect e = false) ∧
      (∀ s g st, Effect.chessMoveMade s g st ∈ rest →
        u.currentTurn = st.currentTurn ∧ u.boardState = st.board ∧
        u.gameStatus = st.gameStatus ∧ u.moveHistory = st.moveHistory) :=
  c3_write_precedes_move_broadcast c3Reg usersAB "s1" "g3" (7, 0) (0, 0) "t9" (by decide)

/-- C4: over any sequence of move events addressed to a game that starts
as a fresh createNewChessGame, the turn flips exactly once per accepted
move and only on accepted moves: the final turn is white when the number
of accepted events is even and black when it is odd. -/
theorem c4_turn_parity :
    ∀ (users : Users) (events : List MoveEv) (g : String) (games : Registry) (w b : String),
    (∀ e ∈ events, e.gameId = g) →
    games g = some (createNewChessGame w b) →
    ∃ game', runMoves games users events g = some game' ∧
      game'.currentTurn =
        (if countAccepted games users events % 2 = 0 then "white" else "black") := by
  intro users events g games w b hall hg
  obtain ⟨game', h1, h2, h3⟩ := runMoves_spec users g events hall games _ hg
  refine ⟨game', h1, ?_⟩
  rw [h2]
  exact flipColor_iterate_white _

/-- C4 witness: the parity property evaluated on a one-event run in which
alice plays the accepted double step (6,4) to (4,4). -/
theorem c4_turn_parity_witness :
    ∃ game', runMoves freshReg usersAB [ev1] "g1" = some game' ∧
      game'.currentTurn =
        (if countAccepted freshReg usersAB [ev1] % 2 = 0 then "white" else "black") :=
  c4_turn_parity usersAB [ev1] "g1" freshReg "alice" "bob" (by decide) rfl

/-- C5: a valid move of a rook, bishop or queen has every square strictly
between source and destination empty, on every board the validator
accepts the move on, not only the initial one. -/
theorem c5_sliding_moves_need_clear_path :
    ∀ (game : Game) (fromSq toSq : Int × Int) (p : Char),
    isValidMove game fromSq toSq = true →
    bget game.board fromSq.1 fromSq.2 = some p →
    (p.toLower = 'r' ∨ p.toLower = 'b' ∨ p.toLower = 'q') →
    ∀ sq ∈ betweenSquares fromSq toSq, bget game.board sq.1 sq.2 = none := by
  intro game fs ts p hv hp hr
  have key : ((ts.1 - fs.1).natAbs = 0 ∨ (ts.2 - fs.2).natAbs = 0 ∨
      (ts.1 - fs.1).natAbs = (ts.2 - fs.2).natAbs) ∧
      isPathClear game.board fs ts = true := by
    simp only [isValidMove, hp] at hv
    split at hv
    · exact absurd hv (by simp)
    · rcases hr with h | h | h
      · simp only [h] at hv
        split at hv
        · exact absurd hv (by simp)
        · split at hv
          · exact absurd hv (by simp)
          · simp at hv
            rcases hv.1 with h' | h'
            · exact ⟨Or.inl (by omega), hv.2⟩
            · exact ⟨Or.inr (Or.inl (by omega)), hv.2⟩
      · simp only [h] at hv
        split at hv
        · exact absurd hv (by simp)
        · split at hv
          · exact absurd hv (by simp)
          · simp at hv
            exact ⟨Or.inr (Or.inr hv.1), hv.2⟩
      · simp only [h] at hv
        split at hv
        · exact absurd hv (by simp)
        · split at hv
          · exact absurd hv (by simp)
          · simp at hv
            rcases hv.1 with (h' | h') | h'
            · exact ⟨Or.inl (by omega), hv.2⟩
            · exact ⟨Or.inr (Or.inl (by omega)), hv.2⟩
            · exact ⟨Or.inr (Or.inr h'), hv.2⟩
  exact isPathClear_between game.board fs ts key.1 key.2

/-- C5 witness: the clear-path property evaluated on the rook move (7,0)
to (0,0) in c3Game at the strictly intermediate square (3,0). -/
theorem c5_sliding_moves_need_clear_path_witness : bget c3Game.board 3 0 = none :=
  c5_sliding_moves_need_clear_path c3Game (7, 0) (0, 0) 'R'
    (by decide) (by decide) (Or.inl (by decide)) (3, 0) (by decide)

/-- C6: when an invite is accepted by a known responder and the inviter
socket is reachable, the handler registers under the supplied game id a
game equal to createNewChessGame of inviter and responder, whose fields
are the standard starting board, inviter as white, responder as black,
turn white, status active, and an empty move history. -/
theorem c6_accept_creates_initial_game :
    ∀ (games : Registry) (users : Users)
      (socketId inviterUsername gameId responder inviterSock : String),
    usersGet users socketId = some responder →
    findSocketByUsername users inviterUsername = some inviterSock →
    (chessInviteResponseHandler games users socketId inviterUsername gameId true).1 gameId =
        some (createNewChessGame inviterUsername responder) ∧
    (createNewChessGame inviterUsername responder).whitePlayer = inviterUsername ∧
    (createNewChessGame inviterUsername responder).blackPlayer = responder ∧
    (createNewChessGame inviterUsername responder).currentTurn = "white" ∧
    (createNewChessGame inviterUsername responder).gameStatus = "active" ∧
    (createNewChessGame inviterUsername responder).moveHistory = [] ∧
    (createNewChessGame inviterUsername responder).board = initialBoard := by
  intro games users socketId inviterUsername gameId responder inviterSock hresp hsock
  refine ⟨?_, rfl, rfl, rfl, rfl, rfl, rfl⟩
  simp [chessInviteResponseHandler, hresp, hsock, registrySet]

/-- C6 witness: the invite-acceptance property evaluated on bob (socket
s2) accepting an invitation from alice into game g1 over an empty
registry. -/
theorem c6_accept_creates_initial_game_witness :
    (chessInviteResponseHandler (fun _ => none) usersAB "s2" "alice" "g1" true).1 "g1" =
        some (createNewChessGame "alice" "bob") ∧
    (createNewChessGame "alice" "bob").whitePlayer = "alice" ∧
    (createNewChessGame "alice" "bob").blackPlayer = "bob" ∧
    (createNewChessGame "alice" "bob").currentTurn = "white" ∧
    (createNewChessGame "alice" "bob").gameStatus = "active" ∧
    (createNewChessGame "alice" "bob").moveHistory = [] ∧
    (createNewChessGame "alice" "bob").board = initialBoard :=
  c6_accept_creates_initial_game (fun _ => none) usersAB "s2" "alice" "g1" "bob" "s1" rfl rfl

/-- C7: whenever the acceptance condition of the chess-move handler fails
(game not found, unknown player, wrong turn, or invalid move), the
handler returns the registry unchanged and emits no effect at all: no
participant is notified and no field of any game changes. -/
theorem c7_rejected_move_silent_no_mutation :
    ∀ (games : Registry) (users : Users) (socketId gameId : String)
      (fromSq toSq : Int × Int) (now : String),
    moveAccepted games users socketId gameId fromSq toSq = false →
    chessMoveHandler games users socketId gameId fromSq toSq now = (games, []) := by
  intro games users socketId gameId fs ts now h
  exact chessMoveHandler_rejected now h

/-- C7 witness: the silent-rejection property evaluated on bob (black)
attempting to move the black pawn (1,4) while it is still the white turn
of a fresh game. -/
theorem c7_rejected_move_silent_no_mutation_witness :
    chessMoveHandler freshReg usersAB "s2" "g1" (1, 4) (2, 4) "t1" = (freshReg, []) :=
  c7_rejected_move_silent_no_mutation freshReg usersAB "s2" "g1" (1, 4) (2, 4) "t1" (by decide)

/-- C8: makeMove appends exactly one record holding the source square, the
destination square, the piece moved, the captured piece (none when the
destination was empty) and the timestamp; accordingly, over any run of
move events on a fresh game the history length equals the number of
accepted moves since creation. -/
theorem c8_history_append_per_accepted_move :
    (∀ (game : Game) (fromSq toSq : Int × Int) (now : String),
      (makeMove game fromSq toSq now).moveHistory = game.moveHistory ++
        [{ fromSq := fromSq, toSq := toSq,
           piece := bget game.board fromSq.1 fromSq.2,
           capturedPiece := bget game.board toSq.1 toSq.2, timestamp := now }]) ∧
    (∀ (users : Users) (events : List MoveEv) (g : String) (games : Registry) (w b : String),
      (∀ e ∈ events, e.gameId = g) →
      games g = some (createNewChessGame w b) →
      ∃ game', runMoves games users events g = some game' ∧
        game'.moveHistory.length = countAccepted games users events) := by
  constructor
  · intro game fs ts now
    rfl
  · intro users events g games w b hall hg
    obtain ⟨game', h1, h2, h3⟩ := runMoves_spec users g events hall games _ hg
    exact ⟨game', h1, by simpa [createNewChessGame] using h3⟩

/-- C8 witness: the history-length property evaluated on a one-event run
in which alice plays the accepted double step (6,4) to (4,4). -/
theorem c8_history_append_per_accepted_move_witness :
    ∃ game', runMoves freshReg usersAB [ev1] "g1" = some game' ∧
      game'.moveHistory.length = countAccepted freshReg usersAB [ev1] :=
  c8_history_append_per_accepted_move.2 usersAB [ev1] "g1" freshReg "alice" "bob"
    (by decide) rfl

/-- C9: a move whose source and destination coincide is always judged
illegal by the validator, for every game state and every square: an empty
square fails the occupancy check and an occupied square fails the
no-self-capture check, for every piece type including the sliders whose
zero-length path is vacuously clear. -/
theorem c9_null_move_always_illegal :
    ∀ (game : Game) (s : Int × Int), isValidMove game s s = false := by
  intro game s
  cases hb : bget game.board s.1 s.2 with
  | none => simp [isValidMove, hb]
  | some p => simp [isValidMove, hb]

/-- C10: when the scanned board holds no white king, checkGameEnd reports
black_wins and broadcasts a game-ended event naming the black player with
reason checkmate, regardless of whether a black king is present: the
white-king check runs first. -/
theorem c10_missing_white_king_black_wins :
    ∀ (game : Game) (gameId : String),
    kingPresent game.board 'K' = false →
    (checkGameEnd game gameId).1.gameStatus = "black_wins" ∧
    (checkGameEnd game gameId).2 =
      [Effect.chessGameEnded gameId game.blackPlayer "checkmate"] := by
  intro game gameId h
  simp [checkGameEnd, h]

/-- C10 witness: the missing-white-king property evaluated on a board with
no kings at all, where black still wins and bob is announced. -/
theorem c10_missing_white_king_black_wins_witness :
    (checkGameEnd noKingsGame "g9").1.gameStatus = "black_wins" ∧
    (checkGameEnd noKingsGame "g9").2 =
      [Effect.chessGameEnded "g9" noKingsGame.blackPlayer "checkmate"] :=
  c10_missing_white_king_black_wins noKingsGame "g9" (by decide)
